import Mathlib

/-!
# Shallow embedding of the medical-appointment system (src/app.py)

The Python program keeps three domain classes (`Paciente`, `Doctor`, `Cita`),
a repository `GestorInventario` holding an SQLite store plus three in-memory
dictionaries mirroring the tables, and CRUD operations that write the store
first and the cache second.  We embed the domain objects as structures, the
dictionaries as insertion-ordered association lists (Python `dict` keeps
insertion order; assignment to an existing key keeps its position), the SQLite
tables as lists of row records together with `AUTOINCREMENT` counters, and
each repository method as a pure state-passing function.  Python exceptions
become `Except`; methods whose side effects survive a raised exception return
the new state alongside the `Except` outcome.
-/

namespace CitasMedicas

/-- Python `str.strip` on the character list: drop whitespace from both ends. -/
def stripChars (l : List Char) : List Char :=
  ((l.dropWhile Char.isWhitespace).reverse.dropWhile Char.isWhitespace).reverse

/-- Python `str.strip`: remove leading and trailing whitespace. -/
def pstrip (s : String) : String :=
  String.mk (stripChars s.data)

/-- `Doctor.ESPECIALIDADES_VALIDAS`: the ten valid specialties. -/
def ESPECIALIDADES_VALIDAS : List String :=
  ["Medicina General", "Pediatría", "Cardiología",
   "Dermatología", "Ginecología", "Traumatología",
   "Neurología", "Oftalmología", "Psiquiatría", "Odontología"]

/-- `Cita.ESTADOS`: the four valid appointment statuses, in source order. -/
def ESTADOS : List String :=
  ["Pendiente", "Confirmada", "Completada", "Cancelada"]

/-- The `Paciente` domain object (private fields behind accessors). -/
structure Paciente where
  id_paciente : Nat
  nombre : String
  cedula : String
  telefono : String
  correo : String
  fecha_nacimiento : String
deriving DecidableEq

/-- `Paciente.nombre` setter: rejects blank input, stores the stripped value. -/
def Paciente.setNombre (p : Paciente) (valor : String) : Except String Paciente :=
  if pstrip valor = "" then .error "El nombre no puede estar vacío."
  else .ok { p with nombre := pstrip valor }

/-- `Paciente.telefono` setter: stores the stripped value. -/
def Paciente.setTelefono (p : Paciente) (valor : String) : Paciente :=
  { p with telefono := pstrip valor }

/-- `Paciente.correo` setter: stores the stripped value. -/
def Paciente.setCorreo (p : Paciente) (valor : String) : Paciente :=
  { p with correo := pstrip valor }

/-- The `Doctor` domain object.  Its constructor stores all fields verbatim. -/
structure Doctor where
  id_doctor : Nat
  nombre : String
  especialidad : String
  telefono : String
  correo : String
deriving DecidableEq

/-- `Doctor.especialidad` setter: rejects values outside the ten-item tuple. -/
def Doctor.setEspecialidad (d : Doctor) (valor : String) : Except String Doctor :=
  if valor ∈ ESPECIALIDADES_VALIDAS then .ok { d with especialidad := valor }
  else .error "Especialidad inválida."

/-- The `Cita` domain object. -/
structure Cita where
  id_cita : Nat
  id_paciente : Nat
  id_doctor : Nat
  fecha : String
  hora : String
  motivo : String
  estado : String
deriving DecidableEq

/-- `Cita.__init__`: an initial status outside `ESTADOS` silently falls back
to `"Pendiente"`; every other field is stored verbatim. -/
def Cita.init (id_cita id_paciente id_doctor : Nat)
    (fecha hora motivo estado : String) : Cita :=
  { id_cita, id_paciente, id_doctor, fecha, hora, motivo,
    estado := if estado ∈ ESTADOS then estado else "Pendiente" }

/-- `Cita.estado` setter: rejects values outside the four-item list. -/
def Cita.setEstado (c : Cita) (valor : String) : Except String Cita :=
  if valor ∈ ESTADOS then .ok { c with estado := valor }
  else .error "Estado inválido."

/-! ## Insertion-ordered dictionaries (Python `dict`) as association lists -/

/-- `d.get(k)` / `d[k]`: first (unique) binding of `k`. -/
def dget [BEq κ] (l : List (κ × α)) (k : κ) : Option α :=
  (l.find? (fun kv => kv.1 == k)).map (fun kv => kv.2)

/-- `k in d`. -/
def dcontains [BEq κ] (l : List (κ × α)) (k : κ) : Bool :=
  l.any (fun kv => kv.1 == k)

/-- `d[k] = v`: replace the key's binding in place if present, else append. -/
def dset [BEq κ] (l : List (κ × α)) (k : κ) (v : α) : List (κ × α) :=
  match l with
  | [] => [(k, v)]
  | kv :: t => if kv.1 == k then (k, v) :: t else kv :: dset t k v

/-- `del d[k]`. -/
def ddel [BEq κ] (l : List (κ × α)) (k : κ) : List (κ × α) :=
  l.filter (fun kv => kv.1 != k)

/-- `d.values()`. -/
def dvalues (l : List (κ × α)) : List α :=
  l.map (fun kv => kv.2)

/-! ## The SQLite store: three tables plus `AUTOINCREMENT` counters -/

/-- A row of the `pacientes` table; stores whatever strings were bound. -/
structure PacienteRow where
  id_paciente : Nat
  nombre : String
  cedula : String
  telefono : String
  correo : String
  fecha_nacimiento : String
deriving DecidableEq

/-- A row of the `doctores` table. -/
structure DoctorRow where
  id_doctor : Nat
  nombre : String
  especialidad : String
  telefono : String
  correo : String
deriving DecidableEq

/-- A row of the `citas` table. -/
structure CitaRow where
  id_cita : Nat
  id_paciente : Nat
  id_doctor : Nat
  fecha : String
  hora : String
  motivo : String
  estado : String
deriving DecidableEq

/-- The database file: three tables and their next `AUTOINCREMENT` ids. -/
structure Store where
  pacientes : List PacienteRow
  doctores : List DoctorRow
  citas : List CitaRow
  nextPaciente : Nat
  nextDoctor : Nat
  nextCita : Nat
deriving DecidableEq

/-- `GestorInventario`: the store plus the three in-memory dictionaries. -/
structure Gestor where
  store : Store
  pacientes : List (Nat × Paciente)
  doctores : List (Nat × Doctor)
  citas : List (Nat × Cita)
deriving DecidableEq

/-- `_cargar_datos`: load every row into the dictionaries through the domain
constructors (`Paciente` and `Doctor` store fields verbatim; `Cita.__init__`
sanitises the status). -/
def cargar_datos (s : Store) : Gestor :=
  { store := s
    pacientes := s.pacientes.foldl (fun acc r =>
      dset acc r.id_paciente
        ⟨r.id_paciente, r.nombre, r.cedula, r.telefono, r.correo, r.fecha_nacimiento⟩) []
    doctores := s.doctores.foldl (fun acc r =>
      dset acc r.id_doctor ⟨r.id_doctor, r.nombre, r.especialidad, r.telefono, r.correo⟩) []
    citas := s.citas.foldl (fun acc r =>
      dset acc r.id_cita
        (Cita.init r.id_cita r.id_paciente r.id_doctor r.fecha r.hora r.motivo r.estado)) [] }

/-- The store of a freshly created database file (`AUTOINCREMENT` starts at 1). -/
def storeVacio : Store :=
  { pacientes := [], doctores := [], citas := [],
    nextPaciente := 1, nextDoctor := 1, nextCita := 1 }

/-- A `GestorInventario` started on a fresh database file. -/
def gestorVacio : Gestor := cargar_datos storeVacio

/-! ## CRUD pacientes -/

/-- `agregar_paciente`: insert the raw values into the store (failing on a
`cedula` UNIQUE violation), then construct and cache the `Paciente` verbatim. -/
def agregar_paciente (g : Gestor)
    (nombre cedula telefono correo fecha_nacimiento : String) :
    Except String (Gestor × Paciente) :=
  if g.store.pacientes.any (fun r => r.cedula == cedula) then
    .error "UNIQUE constraint failed: pacientes.cedula"
  else
    let nuevo_id := g.store.nextPaciente
    let row : PacienteRow := ⟨nuevo_id, nombre, cedula, telefono, correo, fecha_nacimiento⟩
    let p : Paciente := ⟨nuevo_id, nombre, cedula, telefono, correo, fecha_nacimiento⟩
    let store' := { g.store with pacientes := g.store.pacientes ++ [row],
                                 nextPaciente := nuevo_id + 1 }
    .ok ({ g with store := store', pacientes := dset g.pacientes nuevo_id p }, p)

/-- `obtener_paciente`: O(1) dictionary lookup. -/
def obtener_paciente (g : Gestor) (id_paciente : Nat) : Option Paciente :=
  dget g.pacientes id_paciente

/-- `listar_pacientes`. -/
def listar_pacientes (g : Gestor) : List Paciente :=
  dvalues g.pacientes

/-- `actualizar_paciente`: `False` for an unknown id; otherwise update the
store row first, then push the three values through the cached object's
setters.  The name setter may raise, in which case the store update has
already been committed while the cached object is untouched. -/
def actualizar_paciente (g : Gestor) (id_paciente : Nat)
    (nombre telefono correo : String) : Gestor × Except String Bool :=
  match dget g.pacientes id_paciente with
  | none => (g, .ok false)
  | some p =>
    let store' := { g.store with pacientes := g.store.pacientes.map (fun r =>
        if r.id_paciente == id_paciente then
          { r with nombre := nombre, telefono := telefono, correo := correo }
        else r) }
    let g1 := { g with store := store' }
    match p.setNombre nombre with
    | .error e => (g1, .error e)
    | .ok p1 =>
      let p2 := (p1.setTelefono telefono).setCorreo correo
      ({ g1 with pacientes := dset g1.pacientes id_paciente p2 }, .ok true)

/-- `eliminar_paciente`: `False` for an unknown id; otherwise delete the
referencing citas and the paciente from the store, then from the cache. -/
def eliminar_paciente (g : Gestor) (id_paciente : Nat) : Gestor × Bool :=
  match dget g.pacientes id_paciente with
  | none => (g, false)
  | some _ =>
    let store' := { g.store with
      citas := g.store.citas.filter (fun r => r.id_paciente != id_paciente),
      pacientes := g.store.pacientes.filter (fun r => r.id_paciente != id_paciente) }
    let citas' := g.citas.filter (fun kv => kv.2.id_paciente != id_paciente)
    ({ g with store := store', citas := citas',
              pacientes := ddel g.pacientes id_paciente }, true)

/-! ## CRUD doctores -/

/-- `agregar_doctor`: insert the raw values into the store, then construct and
cache the `Doctor` verbatim — the specialty is NOT validated on this path. -/
def agregar_doctor (g : Gestor) (nombre especialidad telefono correo : String) :
    Gestor × Doctor :=
  let nuevo_id := g.store.nextDoctor
  let row : DoctorRow := ⟨nuevo_id, nombre, especialidad, telefono, correo⟩
  let d : Doctor := ⟨nuevo_id, nombre, especialidad, telefono, correo⟩
  let store' := { g.store with doctores := g.store.doctores ++ [row],
                               nextDoctor := nuevo_id + 1 }
  ({ g with store := store', doctores := dset g.doctores nuevo_id d }, d)

/-- `obtener_doctor`. -/
def obtener_doctor (g : Gestor) (id_doctor : Nat) : Option Doctor :=
  dget g.doctores id_doctor

/-- `actualizar_doctor`: `False` for an unknown id; otherwise update the store
row and replace the cached object with a freshly constructed `Doctor` —
again with no specialty validation. -/
def actualizar_doctor (g : Gestor) (id_doctor : Nat)
    (nombre especialidad telefono correo : String) : Gestor × Bool :=
  match dget g.doctores id_doctor with
  | none => (g, false)
  | some _ =>
    let store' := { g.store with doctores := g.store.doctores.map (fun r =>
        if r.id_doctor == id_doctor then
          { r with nombre := nombre, especialidad := especialidad,
                   telefono := telefono, correo := correo }
        else r) }
    ({ g with store := store',
              doctores := dset g.doctores id_doctor
                ⟨id_doctor, nombre, especialidad, telefono, correo⟩ }, true)

/-- `eliminar_doctor`: symmetric to `eliminar_paciente`. -/
def eliminar_doctor (g : Gestor) (id_doctor : Nat) : Gestor × Bool :=
  match dget g.doctores id_doctor with
  | none => (g, false)
  | some _ =>
    let store' := { g.store with
      citas := g.store.citas.filter (fun r => r.id_doctor != id_doctor),
      doctores := g.store.doctores.filter (fun r => r.id_doctor != id_doctor) }
    let citas' := g.citas.filter (fun kv => kv.2.id_doctor != id_doctor)
    ({ g with store := store', citas := citas',
              doctores := ddel g.doctores id_doctor }, true)

/-! ## CRUD citas -/

/-- `agendar_cita`: the INSERT hard-codes `estado = 'Pendiente'` and the
cached `Cita` is constructed with the default status. -/
def agendar_cita (g : Gestor) (id_paciente id_doctor : Nat)
    (fecha hora motivo : String) : Gestor × Cita :=
  let nuevo_id := g.store.nextCita
  let row : CitaRow := ⟨nuevo_id, id_paciente, id_doctor, fecha, hora, motivo, "Pendiente"⟩
  let c := Cita.init nuevo_id id_paciente id_doctor fecha hora motivo "Pendiente"
  let store' := { g.store with citas := g.store.citas ++ [row], nextCita := nuevo_id + 1 }
  ({ g with store := store', citas := dset g.citas nuevo_id c }, c)

/-- `actualizar_estado_cita`: `False` when the id is unknown or the status is
invalid; otherwise update the store row and the cached object's status. -/
def actualizar_estado_cita (g : Gestor) (id_cita : Nat) (nuevo_estado : String) :
    Gestor × Bool :=
  match dget g.citas id_cita with
  | none => (g, false)
  | some c =>
    if nuevo_estado ∈ ESTADOS then
      let store' := { g.store with citas := g.store.citas.map (fun r =>
          if r.id_cita == id_cita then { r with estado := nuevo_estado } else r) }
      let c' := match c.setEstado nuevo_estado with
        | .ok x => x
        | .error _ => c
      ({ g with store := store', citas := dset g.citas id_cita c' }, true)
    else (g, false)

/-- `eliminar_cita`. -/
def eliminar_cita (g : Gestor) (id_cita : Nat) : Gestor × Bool :=
  match dget g.citas id_cita with
  | none => (g, false)
  | some _ =>
    let store' := { g.store with citas := g.store.citas.filter (fun r => r.id_cita != id_cita) }
    ({ g with store := store', citas := ddel g.citas id_cita }, true)

/-! ## Joined listing -/

/-- One entry of `listar_citas_detalle`: `cita.to_dict()` plus the three
enrichment fields. -/
structure CitaDetalle where
  id_cita : Nat
  id_paciente : Nat
  id_doctor : Nat
  fecha : String
  hora : String
  motivo : String
  estado : String
  nombre_paciente : String
  nombre_doctor : String
  especialidad : String
deriving DecidableEq

/-- Enrich one cached cita with patient and doctor data (`"N/A"` when the
reference is missing). -/
def citaDetalleDe (g : Gestor) (c : Cita) : CitaDetalle :=
  let paciente := dget g.pacientes c.id_paciente
  let doctor := dget g.doctores c.id_doctor
  { id_cita := c.id_cita, id_paciente := c.id_paciente, id_doctor := c.id_doctor,
    fecha := c.fecha, hora := c.hora, motivo := c.motivo, estado := c.estado,
    nombre_paciente := match paciente with
      | some p => p.nombre
      | none => "N/A"
    nombre_doctor := match doctor with
      | some d => d.nombre
      | none => "N/A"
    especialidad := match doctor with
      | some d => d.especialidad
      | none => "N/A" }

/-- Python string `<`: lexicographic comparison of the code-point sequences. -/
def strLt (s t : String) : Prop :=
  s.data < t.data

/-- Python string `<=` (code-point lexicographic). -/
def strLe (s t : String) : Prop :=
  s.data ≤ t.data

instance : DecidableRel strLt := fun s t =>
  inferInstanceAs (Decidable (s.data < t.data))

instance : DecidableRel strLe := fun s t =>
  inferInstanceAs (Decidable (s.data ≤ t.data))

/-- The compound sort key of the joined listing: ascending by `(fecha, hora)`,
lexical string comparison on each component, `fecha` first. -/
def citaKeyLE (a b : CitaDetalle) : Prop :=
  strLt a.fecha b.fecha ∨ (a.fecha = b.fecha ∧ strLe a.hora b.hora)

instance : DecidableRel citaKeyLE := fun a b =>
  inferInstanceAs (Decidable (strLt a.fecha b.fecha ∨ (a.fecha = b.fecha ∧ strLe a.hora b.hora)))

/-- `listar_citas_detalle`: enrich every cached cita, then stable-sort by
`(fecha, hora)` (Python `list.sort` with a tuple key). -/
def listar_citas_detalle (g : Gestor) : List CitaDetalle :=
  List.insertionSort citaKeyLE ((dvalues g.citas).map (citaDetalleDe g))

/-! ## Statistics -/

/-- The dictionary returned by `estadisticas`; `citas_por_estado` keeps the
Python dict's insertion order. -/
structure Estadisticas where
  total_pacientes : Nat
  total_doctores : Nat
  total_citas : Nat
  especialidades_activas : List String
  citas_por_estado : List (String × Nat)
deriving DecidableEq

/-- `conteo_estados[c.estado] = conteo_estados.get(c.estado, 0) + 1`. -/
def conteoIncrementa (acc : List (String × Nat)) (estado : String) :
    List (String × Nat) :=
  dset acc estado ((dget acc estado).getD 0 + 1)

/-- `estadisticas`: entity counts, the active-specialty set (listed after
deduplication; Python's `set` order is unspecified) and the per-status counts
initialised to zero for the four statuses. -/
def estadisticas (g : Gestor) : Estadisticas :=
  let especialidades_activas :=
    (((dvalues g.citas).filterMap (fun c => dget g.doctores c.id_doctor)).map
      (fun d => d.especialidad)).dedup
  let conteo0 := ESTADOS.map (fun estado => (estado, 0))
  let conteo_estados := (dvalues g.citas).foldl
    (fun acc c => conteoIncrementa acc c.estado) conteo0
  { total_pacientes := g.pacientes.length,
    total_doctores := g.doctores.length,
    total_citas := g.citas.length,
    especialidades_activas := especialidades_activas,
    citas_por_estado := conteo_estados }

/-! ## Operation sequences over the repository -/

/-- One repository write operation, with the arguments the web layer passes. -/
inductive Op where
  | addPaciente (nombre cedula telefono correo fecha_nacimiento : String)
  | updPaciente (id_paciente : Nat) (nombre telefono correo : String)
  | delPaciente (id_paciente : Nat)
  | addDoctor (nombre especialidad telefono correo : String)
  | updDoctor (id_doctor : Nat) (nombre especialidad telefono correo : String)
  | delDoctor (id_doctor : Nat)
  | addCita (id_paciente id_doctor : Nat) (fecha hora motivo : String)
  | updEstadoCita (id_cita : Nat) (estado : String)
  | delCita (id_cita : Nat)

/-- Apply one operation, keeping whatever state it leaves behind (an
operation that raises leaves its already-committed effects in place). -/
def applyOp (g : Gestor) : Op → Gestor
  | .addPaciente n c t co f =>
      match agregar_paciente g n c t co f with
      | .ok (g', _) => g'
      | .error _ => g
  | .updPaciente i n t c => (actualizar_paciente g i n t c).1
  | .delPaciente i => (eliminar_paciente g i).1
  | .addDoctor n e t c => (agregar_doctor g n e t c).1
  | .updDoctor i n e t c => (actualizar_doctor g i n e t c).1
  | .delDoctor i => (eliminar_doctor g i).1
  | .addCita p d f h m => (agendar_cita g p d f h m).1
  | .updEstadoCita i e => (actualizar_estado_cita g i e).1
  | .delCita i => (eliminar_cita g i).1

/-- Run a sequence of operations. -/
def execOps (g : Gestor) (ops : List Op) : Gestor :=
  ops.foldl applyOp g

/-! ## Invariant predicates -/

/-- Every doctor in the repository (cache and store) has a valid specialty. -/
def DoctoresValidos (g : Gestor) : Prop :=
  (∀ kv ∈ g.doctores, kv.2.especialidad ∈ ESPECIALIDADES_VALIDAS) ∧
  (∀ r ∈ g.store.doctores, r.especialidad ∈ ESPECIALIDADES_VALIDAS)

/-- The specialty argument an operation stores, when it has one, is valid. -/
def opEspecialidadValida : Op → Prop
  | .addDoctor _ especialidad _ _ => especialidad ∈ ESPECIALIDADES_VALIDAS
  | .updDoctor _ _ especialidad _ _ => especialidad ∈ ESPECIALIDADES_VALIDAS
  | _ => True

/-- A name that is non-empty (hence not whitespace-only) and trimmed. -/
def NombreOk (s : String) : Prop :=
  pstrip s = s ∧ s ≠ ""

/-- Every patient in the repository (cache and store) has a good name. -/
def PacientesNombresOk (g : Gestor) : Prop :=
  (∀ kv ∈ g.pacientes, NombreOk kv.2.nombre) ∧
  (∀ r ∈ g.store.pacientes, NombreOk r.nombre)

/-- The name argument an operation stores on a patient, when it has one,
is non-empty and trimmed. -/
def opNombreOk : Op → Prop
  | .addPaciente nombre _ _ _ _ => NombreOk nombre
  | .updPaciente _ nombre _ _ => NombreOk nombre
  | _ => True

/-- Every cached appointment's status is one of the four valid values. -/
def CitasEstadosValidos (g : Gestor) : Prop :=
  ∀ kv ∈ g.citas, kv.2.estado ∈ ESTADOS

/-! ## A small concrete repository used by witnesses and counterexamples -/

/-- One patient registered on a fresh repository. -/
def gPaso1 : Gestor :=
  match agregar_paciente gestorVacio "Ana Torres" "0102030405"
      "0991112233" "ana@mail.com" "1990-05-01" with
  | .ok (g, _) => g
  | .error _ => gestorVacio

/-- ... plus one doctor. -/
def gPaso2 : Gestor :=
  (agregar_doctor gPaso1 "Eva Ruiz" "Pediatría" "0990001122" "eva@mail.com").1

/-- ... plus a first appointment. -/
def gPaso3 : Gestor :=
  (agendar_cita gPaso2 1 1 "2025-02-01" "09:00" "control").1

/-- ... plus a second, earlier-dated appointment. -/
def gDemo : Gestor :=
  (agendar_cita gPaso3 1 1 "2025-01-15" "10:00" "chequeo").1

/-! # Theorems -/

/-! ## Dictionary lemmas -/

theorem dget_dset_self {κ α : Type} [BEq κ] [LawfulBEq κ] (l : List (κ × α)) (k : κ) (v : α) :
    dget (dset l k v) k = some v := by
  induction l with
  | nil => simp [dset, dget, List.find?]
  | cons kv t ih =>
    by_cases h : kv.1 == k
    · simp [dset, h, dget, List.find?]
    · simp only [dset, h, Bool.false_eq_true, if_false]
      simpa [dget, List.find?, h] using ih

theorem mem_dset {κ α : Type} [BEq κ] {l : List (κ × α)} {k : κ} {v : α} {x : κ × α}
    (hx : x ∈ dset l k v) : x ∈ l ∨ x = (k, v) := by
  induction l with
  | nil => simpa [dset] using hx
  | cons kv t ih =>
    by_cases h : kv.1 == k
    · simp only [dset, h, if_true] at hx
      rcases List.mem_cons.mp hx with h1 | h1
      · exact Or.inr h1
      · exact Or.inl (List.mem_cons_of_mem _ h1)
    · simp only [dset, h, Bool.false_eq_true, if_false] at hx
      rcases List.mem_cons.mp hx with h1 | h1
      · exact Or.inl (h1 ▸ List.mem_cons_self _ _)
      · rcases ih h1 with h2 | h2
        · exact Or.inl (List.mem_cons_of_mem _ h2)
        · exact Or.inr h2

theorem dget_ddel_self {κ α : Type} [BEq κ] (l : List (κ × α)) (k : κ) :
    dget (ddel l k) k = none := by
  have hfind : List.find? (fun kv => kv.1 == k) (ddel l k) = none := by
    apply List.find?_eq_none.mpr
    intro x hx
    simp only [ddel] at hx
    have h2 := List.of_mem_filter hx
    simpa [bne] using h2
  simp [dget, hfind]

theorem mem_ddel {κ α : Type} [BEq κ] {l : List (κ × α)} {k : κ} {x : κ × α}
    (hx : x ∈ ddel l k) : x ∈ l :=
  List.mem_of_mem_filter hx

theorem mem_ddel_of_mem {κ α : Type} [BEq κ] [LawfulBEq κ] {l : List (κ × α)} {k : κ}
    {x : κ × α} (hx : x ∈ l) (hk : ¬ x.1 = k) : x ∈ ddel l k := by
  refine List.mem_filter.mpr ⟨hx, ?_⟩
  simpa [bne] using fun h => hk (eq_of_beq h)

theorem dcontains_eq_isSome_dget {κ α : Type} [BEq κ] (l : List (κ × α)) (k : κ) :
    dcontains l k = (dget l k).isSome := by
  induction l with
  | nil => simp [dcontains, dget, List.find?]
  | cons kv t ih =>
    by_cases h : kv.1 == k
    · simp [dcontains, dget, List.find?, h]
    · simpa [dcontains, dget, List.find?, h] using ih

theorem map_fst_dset_of_contains {κ α : Type} [BEq κ] [LawfulBEq κ]
    {l : List (κ × α)} {k : κ} (v : α)
    (h : dcontains l k = true) :
    (dset l k v).map Prod.fst = l.map Prod.fst := by
  induction l with
  | nil => simp [dcontains] at h
  | cons kv t ih =>
    by_cases hk : kv.1 == k
    · simp [dset, hk, eq_of_beq hk]
    · have ht : dcontains t k = true := by
        simpa [dcontains, hk] using h
      simp [dset, hk, ih ht]

theorem sum_snd_dset_incr {κ : Type} [BEq κ] {l : List (κ × Nat)} {k : κ}
    (h : dcontains l k = true) :
    ((dset l k ((dget l k).getD 0 + 1)).map Prod.snd).sum =
      (l.map Prod.snd).sum + 1 := by
  induction l with
  | nil => simp [dcontains] at h
  | cons kv t ih =>
    by_cases hk : kv.1 == k
    · have hfind : List.find? (fun kv => kv.1 == k) (kv :: t) = some kv :=
        List.find?_cons_of_pos _ hk
      simp only [dget, hfind, Option.map_some', Option.getD_some, dset, hk, if_true,
        List.map_cons, List.sum_cons]
      omega
    · have ht : dcontains t k = true := by
        simpa [dcontains, hk] using h
      have hfind : List.find? (fun kv => kv.1 == k) (kv :: t) =
          List.find? (fun kv => kv.1 == k) t :=
        List.find?_cons_of_neg _ hk
      have hdget : dget ((kv :: t) : List (κ × Nat)) k = dget t k := by
        simp only [dget, hfind]
      rw [hdget]
      simp only [dset, hk, Bool.false_eq_true, if_false, List.map_cons, List.sum_cons]
      rw [ih ht]
      omega

theorem dcontains_of_mem_fst {κ α : Type} [BEq κ] [LawfulBEq κ] {l : List (κ × α)} {k : κ}
    (h : k ∈ l.map Prod.fst) : dcontains l k = true := by
  induction l with
  | nil => simp at h
  | cons kv t ih =>
    rcases List.mem_cons.mp h with h1 | h1
    · simp [dcontains, h1.symm]
    · have ht := ih h1
      simp only [dcontains, List.any_cons] at ht ⊢
      simp [ht]

theorem dget_mem {κ α : Type} [BEq κ] {l : List (κ × α)} {k : κ} {v : α}
    (h : dget l k = some v) : ∃ kv ∈ l, kv.2 = v := by
  rcases Option.map_eq_some'.mp h with ⟨kv, hfind, hv⟩
  exact ⟨kv, List.mem_of_find?_eq_some hfind, hv⟩

/-! ## Shape lemmas: how each operation rewrites the state -/

theorem agregar_paciente_ok {g g' : Gestor} {n c t co f : String} {p : Paciente}
    (h : agregar_paciente g n c t co f = .ok (g', p)) :
    p = ⟨g.store.nextPaciente, n, c, t, co, f⟩ ∧
    g' = { g with
      store := { g.store with
        pacientes := g.store.pacientes ++ [⟨g.store.nextPaciente, n, c, t, co, f⟩],
        nextPaciente := g.store.nextPaciente + 1 },
      pacientes := dset g.pacientes g.store.nextPaciente
        ⟨g.store.nextPaciente, n, c, t, co, f⟩ } := by
  unfold agregar_paciente at h
  split at h
  · cases h
  · cases h
    exact ⟨rfl, rfl⟩

theorem agregar_paciente_error {g : Gestor} {n c t co f e : String}
    (h : agregar_paciente g n c t co f = .error e) :
    e = "UNIQUE constraint failed: pacientes.cedula" := by
  unfold agregar_paciente at h
  split at h
  · cases h; rfl
  · cases h

theorem actualizar_paciente_none {g : Gestor} {i : Nat} {n t c : String}
    (h : dget g.pacientes i = none) :
    actualizar_paciente g i n t c = (g, .ok false) := by
  unfold actualizar_paciente
  rw [h]

theorem actualizar_paciente_some_blank {g : Gestor} {i : Nat} {n t c : String}
    {p : Paciente} (h : dget g.pacientes i = some p) (hb : pstrip n = "") :
    actualizar_paciente g i n t c =
      ({ g with store := { g.store with pacientes := g.store.pacientes.map (fun r =>
          if r.id_paciente == i then { r with nombre := n, telefono := t, correo := c }
          else r) } },
       .error "El nombre no puede estar vacío.") := by
  unfold actualizar_paciente
  rw [h]
  simp [Paciente.setNombre, hb]

theorem actualizar_paciente_some_ok {g : Gestor} {i : Nat} {n t c : String}
    {p : Paciente} (h : dget g.pacientes i = some p) (hb : pstrip n ≠ "") :
    actualizar_paciente g i n t c =
      ({ g with
        store := { g.store with pacientes := g.store.pacientes.map (fun r =>
          if r.id_paciente == i then { r with nombre := n, telefono := t, correo := c }
          else r) },
        pacientes := dset g.pacientes i
          { p with nombre := pstrip n, telefono := pstrip t, correo := pstrip c } },
       .ok true) := by
  unfold actualizar_paciente
  rw [h]
  simp [Paciente.setNombre, hb, Paciente.setTelefono, Paciente.setCorreo]

theorem eliminar_paciente_none {g : Gestor} {i : Nat}
    (h : dget g.pacientes i = none) :
    eliminar_paciente g i = (g, false) := by
  unfold eliminar_paciente
  rw [h]

theorem eliminar_paciente_some {g : Gestor} {i : Nat} {p : Paciente}
    (h : dget g.pacientes i = some p) :
    eliminar_paciente g i =
      ({ g with
        store := { g.store with
          citas := g.store.citas.filter (fun r => r.id_paciente != i),
          pacientes := g.store.pacientes.filter (fun r => r.id_paciente != i) },
        citas := g.citas.filter (fun kv => kv.2.id_paciente != i),
        pacientes := ddel g.pacientes i }, true) := by
  unfold eliminar_paciente
  rw [h]

theorem actualizar_doctor_none {g : Gestor} {i : Nat} {n e t c : String}
    (h : dget g.doctores i = none) :
    actualizar_doctor g i n e t c = (g, false) := by
  unfold actualizar_doctor
  rw [h]

theorem actualizar_doctor_some {g : Gestor} {i : Nat} {n e t c : String} {d : Doctor}
    (h : dget g.doctores i = some d) :
    actualizar_doctor g i n e t c =
      ({ g with
        store := { g.store with doctores := g.store.doctores.map (fun r =>
          if r.id_doctor == i then
            { r with nombre := n, especialidad := e, telefono := t, correo := c }
          else r) },
        doctores := dset g.doctores i ⟨i, n, e, t, c⟩ }, true) := by
  unfold actualizar_doctor
  rw [h]

theorem eliminar_doctor_none {g : Gestor} {i : Nat}
    (h : dget g.doctores i = none) :
    eliminar_doctor g i = (g, false) := by
  unfold eliminar_doctor
  rw [h]

theorem eliminar_doctor_some {g : Gestor} {i : Nat} {d : Doctor}
    (h : dget g.doctores i = some d) :
    eliminar_doctor g i =
      ({ g with
        store := { g.store with
          citas := g.store.citas.filter (fun r => r.id_doctor != i),
          doctores := g.store.doctores.filter (fun r => r.id_doctor != i) },
        citas := g.citas.filter (fun kv => kv.2.id_doctor != i),
        doctores := ddel g.doctores i }, true) := by
  unfold eliminar_doctor
  rw [h]

theorem actualizar_estado_cita_none {g : Gestor} {i : Nat} {e : String}
    (h : dget g.citas i = none) :
    actualizar_estado_cita g i e = (g, false) := by
  unfold actualizar_estado_cita
  rw [h]

theorem actualizar_estado_cita_invalido {g : Gestor} {i : Nat} {e : String}
    {c : Cita} (h : dget g.citas i = some c) (he : e ∉ ESTADOS) :
    actualizar_estado_cita g i e = (g, false) := by
  unfold actualizar_estado_cita
  rw [h]
  simp [he]

theorem actualizar_estado_cita_valido {g : Gestor} {i : Nat} {e : String}
    {c : Cita} (h : dget g.citas i = some c) (he : e ∈ ESTADOS) :
    actualizar_estado_cita g i e =
      ({ g with
        store := { g.store with citas := g.store.citas.map (fun r =>
          if r.id_cita == i then { r with estado := e } else r) },
        citas := dset g.citas i { c with estado := e } }, true) := by
  unfold actualizar_estado_cita
  rw [h]
  simp only [if_pos he, Cita.setEstado]

theorem eliminar_cita_none {g : Gestor} {i : Nat}
    (h : dget g.citas i = none) :
    eliminar_cita g i = (g, false) := by
  unfold eliminar_cita
  rw [h]

theorem eliminar_cita_some {g : Gestor} {i : Nat} {c : Cita}
    (h : dget g.citas i = some c) :
    eliminar_cita g i =
      ({ g with
        store := { g.store with citas := g.store.citas.filter (fun r => r.id_cita != i) },
        citas := ddel g.citas i }, true) := by
  unfold eliminar_cita
  rw [h]

/-! ## C9: the specialty setter -/

/-- C9: setting a Doctor's specialty to a value outside the fixed ten-item
enumeration fails with an InvalidInput error (so no updated doctor is
produced and the stored specialty is unchanged); setting it to a value inside
the enumeration succeeds and stores exactly that value. -/
theorem setEspecialidad_valida_o_falla (d : Doctor) (valor : String) :
    (valor ∉ ESPECIALIDADES_VALIDAS →
      d.setEspecialidad valor = .error "Especialidad inválida.") ∧
    (valor ∈ ESPECIALIDADES_VALIDAS →
      d.setEspecialidad valor = .ok { d with especialidad := valor }) := by
  constructor
  · intro h
    simp [Doctor.setEspecialidad, h]
  · intro h
    simp [Doctor.setEspecialidad, h]

/-- Witness for C9: one rejected and one accepted concrete specialty. -/
theorem setEspecialidad_valida_o_falla_witness :
    ((Doctor.mk 1 "Eva Ruiz" "Pediatría" "099" "e@m.c").setEspecialidad "Magia" =
      .error "Especialidad inválida.") ∧
    ((Doctor.mk 1 "Eva Ruiz" "Pediatría" "099" "e@m.c").setEspecialidad "Cardiología" =
      .ok (Doctor.mk 1 "Eva Ruiz" "Cardiología" "099" "e@m.c")) :=
  ⟨(setEspecialidad_valida_o_falla (Doctor.mk 1 "Eva Ruiz" "Pediatría" "099" "e@m.c")
      "Magia").1 (by decide),
   (setEspecialidad_valida_o_falla (Doctor.mk 1 "Eva Ruiz" "Pediatría" "099" "e@m.c")
      "Cardiología").2 (by decide)⟩

/-! ## C8: new appointments are always Pendiente -/

/-- C8: constructing a `Cita` with an initial status outside the four-value
set silently yields `"Pendiente"` rather than erroring, and `agendar_cita`
stores status `"Pendiente"` in the returned object, in the cache entry and in
the appended store row, regardless of caller input. -/
theorem cita_nueva_pendiente (id_cita id_paciente id_doctor : Nat)
    (fecha hora motivo estado : String) (g : Gestor) (pid did : Nat)
    (f2 h2 m2 : String) :
    (estado ∉ ESTADOS →
      (Cita.init id_cita id_paciente id_doctor fecha hora motivo estado).estado =
        "Pendiente") ∧
    (agendar_cita g pid did f2 h2 m2).2.estado = "Pendiente" ∧
    dget (agendar_cita g pid did f2 h2 m2).1.citas
        (agendar_cita g pid did f2 h2 m2).2.id_cita =
      some (agendar_cita g pid did f2 h2 m2).2 ∧
    ((agendar_cita g pid did f2 h2 m2).1.store.citas.getLast?).map
        (fun r => r.estado) = some "Pendiente" := by
  refine ⟨fun h => by simp [Cita.init, h], ?_, ?_, ?_⟩
  · simp [agendar_cita, Cita.init]
  · simp only [agendar_cita, Cita.init]
    exact dget_dset_self _ _ _
  · simp [agendar_cita, List.getLast?_concat]

/-- Witness for C8: an out-of-set initial status and a concrete booking. -/
theorem cita_nueva_pendiente_witness :
    (Cita.init 7 1 1 "2025-03-01" "08:00" "control" "EnEspera").estado = "Pendiente" ∧
    (agendar_cita gestorVacio 1 1 "2025-03-01" "08:00" "control").2.estado =
      "Pendiente" :=
  ⟨(cita_nueva_pendiente 7 1 1 "2025-03-01" "08:00" "control" "EnEspera"
      gestorVacio 1 1 "2025-03-01" "08:00" "control").1 (by decide),
   (cita_nueva_pendiente 7 1 1 "2025-03-01" "08:00" "control" "EnEspera"
      gestorVacio 1 1 "2025-03-01" "08:00" "control").2.1⟩


/-! ## Updated store rows -/

theorem map_update_pacienterow_fields {rows : List PacienteRow} {i : Nat}
    {n t c : String} {r : PacienteRow}
    (hr : r ∈ rows.map (fun r =>
      if r.id_paciente == i then { r with nombre := n, telefono := t, correo := c }
      else r))
    (hri : r.id_paciente = i) : r.nombre = n ∧ r.telefono = t ∧ r.correo = c := by
  rcases List.mem_map.mp hr with ⟨r0, hr0, hmap⟩
  by_cases h0 : r0.id_paciente == i
  · rw [← hmap]
    simp [h0]
  · rw [← hmap] at hri
    simp only [h0, Bool.false_eq_true, if_false] at hri
    exact absurd (beq_iff_eq.mpr hri) h0

theorem map_update_pacienterow_other {rows : List PacienteRow} {i : Nat}
    {n t c : String} {r : PacienteRow} (hr : r ∈ rows) (hri : r.id_paciente ≠ i) :
    r ∈ rows.map (fun r =>
      if r.id_paciente == i then { r with nombre := n, telefono := t, correo := c }
      else r) := by
  refine List.mem_map.mpr ⟨r, hr, ?_⟩
  simp [hri]

/-! ## C10: blank-name update raises after the store write -/

/-- C10: calling `actualizar_paciente` with a known id and a blank or
whitespace-only name raises the name setter's error instead of returning a
boolean; the cached `Paciente` keeps all its previous field values, while the
persistent row has already been overwritten with the new raw values, so on
this path cache and store can disagree. -/
theorem actualizar_paciente_nombre_blanco (g : Gestor) (i : Nat)
    (n t c : String) (p : Paciente)
    (hp : dget g.pacientes i = some p) (hb : pstrip n = "") :
    (actualizar_paciente g i n t c).2 = .error "El nombre no puede estar vacío." ∧
    (actualizar_paciente g i n t c).1.pacientes = g.pacientes ∧
    (actualizar_paciente g i n t c).1.doctores = g.doctores ∧
    (actualizar_paciente g i n t c).1.citas = g.citas ∧
    dget (actualizar_paciente g i n t c).1.pacientes i = some p ∧
    (∀ r ∈ (actualizar_paciente g i n t c).1.store.pacientes,
      r.id_paciente = i → r.nombre = n ∧ r.telefono = t ∧ r.correo = c) ∧
    (∀ r ∈ g.store.pacientes, r.id_paciente ≠ i →
      r ∈ (actualizar_paciente g i n t c).1.store.pacientes) := by
  rw [actualizar_paciente_some_blank hp hb]
  exact ⟨rfl, rfl, rfl, rfl, hp,
    fun r hr hri => map_update_pacienterow_fields hr hri,
    fun r hr hri => map_update_pacienterow_other hr hri⟩

/-- Witness for C10 on the concrete demo repository. -/
theorem actualizar_paciente_nombre_blanco_witness :
    (actualizar_paciente gDemo 1 "   " "000" "x@m.c").2 =
      .error "El nombre no puede estar vacío." ∧
    dget (actualizar_paciente gDemo 1 "   " "000" "x@m.c").1.pacientes 1 =
      some (Paciente.mk 1 "Ana Torres" "0102030405" "0991112233"
        "ana@mail.com" "1990-05-01") :=
  ⟨(actualizar_paciente_nombre_blanco gDemo 1 "   " "000" "x@m.c"
      (Paciente.mk 1 "Ana Torres" "0102030405" "0991112233" "ana@mail.com" "1990-05-01")
      (by decide) (by decide)).1,
   (actualizar_paciente_nombre_blanco gDemo 1 "   " "000" "x@m.c"
      (Paciente.mk 1 "Ana Torres" "0102030405" "0991112233" "ana@mail.com" "1990-05-01")
      (by decide) (by decide)).2.2.2.2.1⟩

/-! ## C2: cache versus store after a successful patient update -/

/-- C2 counterexample: a successful `actualizar_paciente` with an untrimmed
phone value leaves the cached phone (`"0999"`) different from the stored
row's phone (`" 0999 "`): the cache is not equal to the store after this
successful write. -/
theorem actualizar_paciente_cache_discrepa_cx :
    (actualizar_paciente gPaso1 1 "Ana Torres" " 0999 " "a@b.c").2 = .ok true ∧
    ((actualizar_paciente gPaso1 1 "Ana Torres" " 0999 " "a@b.c").1.pacientes.map
      (fun kv => kv.2.telefono)) = ["0999"] ∧
    ((actualizar_paciente gPaso1 1 "Ana Torres" " 0999 " "a@b.c").1.store.pacientes.map
      (fun r => r.telefono)) = [" 0999 "] ∧
    ("0999" : String) ≠ " 0999 " :=
  ⟨rfl, by decide, by decide, by decide⟩

/-- C2 (amended): after a successful `actualizar_paciente`, the cached
patient's name, phone and email are the STRIPPED versions of the submitted
values while the store row keeps the submitted values verbatim; cache and
store therefore coincide exactly when the submitted values are already
trimmed. -/
theorem actualizar_paciente_cache_recortado (g : Gestor) (i : Nat)
    (n t c : String) (p : Paciente)
    (hp : dget g.pacientes i = some p) (hb : pstrip n ≠ "") :
    (actualizar_paciente g i n t c).2 = .ok true ∧
    dget (actualizar_paciente g i n t c).1.pacientes i =
      some { p with nombre := pstrip n, telefono := pstrip t, correo := pstrip c } ∧
    (∀ r ∈ (actualizar_paciente g i n t c).1.store.pacientes,
      r.id_paciente = i → r.nombre = n ∧ r.telefono = t ∧ r.correo = c) := by
  rw [actualizar_paciente_some_ok hp hb]
  exact ⟨rfl, dget_dset_self _ _ _,
    fun r hr hri => map_update_pacienterow_fields hr hri⟩

/-- Witness for the amended C2 on the concrete demo repository. -/
theorem actualizar_paciente_cache_recortado_witness :
    (actualizar_paciente gPaso1 1 "Ana" "0988" "b@m.c").2 = .ok true ∧
    dget (actualizar_paciente gPaso1 1 "Ana" "0988" "b@m.c").1.pacientes 1 =
      some (Paciente.mk 1 "Ana" "0102030405" "0988" "b@m.c" "1990-05-01") :=
  ⟨(actualizar_paciente_cache_recortado gPaso1 1 "Ana" "0988" "b@m.c"
      (Paciente.mk 1 "Ana Torres" "0102030405" "0991112233" "ana@mail.com" "1990-05-01")
      (by decide) (by decide)).1,
   ((actualizar_paciente_cache_recortado gPaso1 1 "Ana" "0988" "b@m.c"
      (Paciente.mk 1 "Ana Torres" "0102030405" "0991112233" "ana@mail.com" "1990-05-01")
      (by decide) (by decide)).2.1).trans (by decide)⟩


/-! ## Fold and constructor lemmas for invariants -/

theorem foldl_dset_values {κ α β : Type} [BEq κ] (key : β → κ) (val : β → α)
    (P : α → Prop) (hval : ∀ b, P (val b)) :
    ∀ (rows : List β) (acc : List (κ × α)), (∀ kv ∈ acc, P kv.2) →
      ∀ kv ∈ rows.foldl (fun a b => dset a (key b) (val b)) acc, P kv.2 := by
  intro rows
  induction rows with
  | nil => exact fun acc hacc kv hkv => hacc kv hkv
  | cons r rest ih =>
    intro acc hacc kv hkv
    refine ih _ ?_ kv hkv
    intro kv2 hkv2
    rcases mem_dset hkv2 with h1 | h1
    · exact hacc kv2 h1
    · rw [h1]
      exact hval r

theorem cita_init_estado_mem (a b c : Nat) (f h m e : String) :
    (Cita.init a b c f h m e).estado ∈ ESTADOS := by
  simp only [Cita.init]
  split
  · assumption
  · simp [ESTADOS]

/-! ## Preservation of the specialty invariant -/

theorem applyOp_doctores_validos {g : Gestor} {op : Op}
    (hg : DoctoresValidos g) (hop : opEspecialidadValida op) :
    DoctoresValidos (applyOp g op) := by
  obtain ⟨hcache, hstore⟩ := hg
  cases op with
  | addPaciente n c t co f =>
    simp only [applyOp]
    cases hca : agregar_paciente g n c t co f with
    | error e => exact ⟨hcache, hstore⟩
    | ok gp =>
      obtain ⟨g1, p⟩ := gp
      obtain ⟨-, hg1⟩ := agregar_paciente_ok hca
      rw [hg1]
      exact ⟨hcache, hstore⟩
  | updPaciente i n t c =>
    simp only [applyOp]
    rcases hdg : dget g.pacientes i with - | p
    · rw [actualizar_paciente_none hdg]
      exact ⟨hcache, hstore⟩
    · by_cases hb : pstrip n = ""
      · rw [actualizar_paciente_some_blank hdg hb]
        exact ⟨hcache, hstore⟩
      · rw [actualizar_paciente_some_ok hdg hb]
        exact ⟨hcache, hstore⟩
  | delPaciente i =>
    simp only [applyOp]
    rcases hdg : dget g.pacientes i with - | p
    · rw [eliminar_paciente_none hdg]
      exact ⟨hcache, hstore⟩
    · rw [eliminar_paciente_some hdg]
      exact ⟨hcache, hstore⟩
  | addDoctor n e t c =>
    simp only [applyOp, agregar_doctor]
    constructor
    · intro kv hkv
      rcases mem_dset hkv with h1 | h1
      · exact hcache kv h1
      · rw [h1]
        exact hop
    · intro r hr
      rcases List.mem_append.mp hr with h1 | h1
      · exact hstore r h1
      · rw [List.mem_singleton.mp h1]
        exact hop
  | updDoctor i n e t c =>
    simp only [applyOp]
    rcases hdg : dget g.doctores i with - | d
    · rw [actualizar_doctor_none hdg]
      exact ⟨hcache, hstore⟩
    · rw [actualizar_doctor_some hdg]
      constructor
      · intro kv hkv
        rcases mem_dset hkv with h1 | h1
        · exact hcache kv h1
        · rw [h1]
          exact hop
      · intro r hr
        rcases List.mem_map.mp hr with ⟨r0, hr0, hmap⟩
        by_cases h0 : r0.id_doctor == i
        · rw [← hmap]
          simp only [h0, if_true]
          exact hop
        · rw [← hmap]
          simp only [h0, Bool.false_eq_true, if_false]
          exact hstore r0 hr0
  | delDoctor i =>
    simp only [applyOp]
    rcases hdg : dget g.doctores i with - | d
    · rw [eliminar_doctor_none hdg]
      exact ⟨hcache, hstore⟩
    · rw [eliminar_doctor_some hdg]
      exact ⟨fun kv hkv => hcache kv (mem_ddel hkv),
        fun r hr => hstore r (List.mem_of_mem_filter hr)⟩
  | addCita pid did f h m =>
    simp only [applyOp, agendar_cita]
    exact ⟨hcache, hstore⟩
  | updEstadoCita i e =>
    simp only [applyOp]
    rcases hdg : dget g.citas i with - | ci
    · rw [actualizar_estado_cita_none hdg]
      exact ⟨hcache, hstore⟩
    · by_cases he : e ∈ ESTADOS
      · rw [actualizar_estado_cita_valido hdg he]
        exact ⟨hcache, hstore⟩
      · rw [actualizar_estado_cita_invalido hdg he]
        exact ⟨hcache, hstore⟩
  | delCita i =>
    simp only [applyOp]
    rcases hdg : dget g.citas i with - | ci
    · rw [eliminar_cita_none hdg]
      exact ⟨hcache, hstore⟩
    · rw [eliminar_cita_some hdg]
      exact ⟨hcache, hstore⟩

/-! ## C1: the specialty invariant over operation sequences -/

/-- C1 counterexample: `agregar_doctor` performs no specialty validation, so
one create operation suffices to put a doctor whose specialty lies outside
the ten-value enumeration into the repository. -/
theorem agregar_doctor_especialidad_invalida_cx :
    ((execOps gestorVacio [Op.addDoctor "Ana Mora" "Magia" "099" "a@m.c"]).doctores.map
      (fun kv => kv.2.especialidad)) = ["Magia"] ∧
    ((execOps gestorVacio [Op.addDoctor "Ana Mora" "Magia" "099" "a@m.c"]).store.doctores.map
      (fun r => r.especialidad)) = ["Magia"] ∧
    "Magia" ∉ ESPECIALIDADES_VALIDAS :=
  ⟨by decide, by decide, by decide⟩

/-- C1 (amended): only the `especialidad` setter validates; `agregar_doctor`,
`actualizar_doctor` and the load path store the given specialty verbatim.
The invariant that every repository doctor's specialty lies in the ten-value
enumeration therefore holds after any operation sequence exactly when it
holds initially and every specialty supplied to a create/update operation is
itself in the enumeration. -/
theorem especialidades_validas_si_entradas_validas (g : Gestor) (ops : List Op)
    (hg : DoctoresValidos g) (hops : ∀ op ∈ ops, opEspecialidadValida op) :
    DoctoresValidos (execOps g ops) := by
  induction ops generalizing g with
  | nil => exact hg
  | cons op rest ih =>
    simp only [execOps, List.foldl_cons]
    exact ih (applyOp g op)
      (applyOp_doctores_validos hg (hops op (List.mem_cons_self _ _)))
      (fun o ho => hops o (List.mem_cons_of_mem _ ho))

/-- Witness for the amended C1: a valid create keeps the invariant. -/
theorem especialidades_validas_si_entradas_validas_witness :
    DoctoresValidos (execOps gestorVacio
      [Op.addDoctor "Eva Ruiz" "Pediatría" "099" "e@m.c"]) := by
  refine especialidades_validas_si_entradas_validas gestorVacio _ ?_ ?_
  · exact ⟨by simp [gestorVacio, cargar_datos, storeVacio],
      by simp [gestorVacio, cargar_datos, storeVacio]⟩
  · intro op hop
    rcases List.mem_singleton.mp hop with rfl
    show ("Pediatría" : String) ∈ ESPECIALIDADES_VALIDAS
    decide


/-! ## Preservation of the patient-name invariant -/

theorem applyOp_nombres_ok {g : Gestor} {op : Op}
    (hg : PacientesNombresOk g) (hop : opNombreOk op) :
    PacientesNombresOk (applyOp g op) := by
  obtain ⟨hcache, hstore⟩ := hg
  cases op with
  | addPaciente n c t co f =>
    simp only [applyOp]
    cases hca : agregar_paciente g n c t co f with
    | error e => exact ⟨hcache, hstore⟩
    | ok gp =>
      obtain ⟨g1, p⟩ := gp
      obtain ⟨-, hg1⟩ := agregar_paciente_ok hca
      rw [hg1]
      constructor
      · intro kv hkv
        rcases mem_dset hkv with h1 | h1
        · exact hcache kv h1
        · rw [h1]
          exact hop
      · intro r hr
        rcases List.mem_append.mp hr with h1 | h1
        · exact hstore r h1
        · rw [List.mem_singleton.mp h1]
          exact hop
  | updPaciente i n t c =>
    simp only [applyOp]
    rcases hdg : dget g.pacientes i with - | p
    · rw [actualizar_paciente_none hdg]
      exact ⟨hcache, hstore⟩
    · have hb : pstrip n ≠ "" := by
        rw [hop.1]
        exact hop.2
      rw [actualizar_paciente_some_ok hdg hb]
      constructor
      · intro kv hkv
        rcases mem_dset hkv with h1 | h1
        · exact hcache kv h1
        · rw [h1]
          show NombreOk (pstrip n)
          rw [hop.1]
          exact hop
      · intro r hr
        rcases List.mem_map.mp hr with ⟨r0, hr0, hmap⟩
        by_cases h0 : r0.id_paciente == i
        · rw [← hmap]
          simp only [h0, if_true]
          exact hop
        · rw [← hmap]
          simp only [h0, Bool.false_eq_true, if_false]
          exact hstore r0 hr0
  | delPaciente i =>
    simp only [applyOp]
    rcases hdg : dget g.pacientes i with - | p
    · rw [eliminar_paciente_none hdg]
      exact ⟨hcache, hstore⟩
    · rw [eliminar_paciente_some hdg]
      exact ⟨fun kv hkv => hcache kv (mem_ddel hkv),
        fun r hr => hstore r (List.mem_of_mem_filter hr)⟩
  | addDoctor n e t c =>
    simp only [applyOp, agregar_doctor]
    exact ⟨hcache, hstore⟩
  | updDoctor i n e t c =>
    simp only [applyOp]
    rcases hdg : dget g.doctores i with - | d
    · rw [actualizar_doctor_none hdg]
      exact ⟨hcache, hstore⟩
    · rw [actualizar_doctor_some hdg]
      exact ⟨hcache, hstore⟩
  | delDoctor i =>
    simp only [applyOp]
    rcases hdg : dget g.doctores i with - | d
    · rw [eliminar_doctor_none hdg]
      exact ⟨hcache, hstore⟩
    · rw [eliminar_doctor_some hdg]
      exact ⟨hcache, hstore⟩
  | addCita pid did f h m =>
    simp only [applyOp, agendar_cita]
    exact ⟨hcache, hstore⟩
  | updEstadoCita i e =>
    simp only [applyOp]
    rcases hdg : dget g.citas i with - | ci
    · rw [actualizar_estado_cita_none hdg]
      exact ⟨hcache, hstore⟩
    · by_cases he : e ∈ ESTADOS
      · rw [actualizar_estado_cita_valido hdg he]
        exact ⟨hcache, hstore⟩
      · rw [actualizar_estado_cita_invalido hdg he]
        exact ⟨hcache, hstore⟩
  | delCita i =>
    simp only [applyOp]
    rcases hdg : dget g.citas i with - | ci
    · rw [eliminar_cita_none hdg]
      exact ⟨hcache, hstore⟩
    · rw [eliminar_cita_some hdg]
      exact ⟨hcache, hstore⟩

/-! ## C3: patient names over operation sequences -/

/-- C3 counterexample: `agregar_paciente` stores the submitted name verbatim
with no validation, so creating a patient with a whitespace-only name puts a
blank, untrimmed name into the repository. -/
theorem agregar_paciente_nombre_blanco_cx :
    ((execOps gestorVacio [Op.addPaciente "   " "0909" "" "" ""]).pacientes.map
      (fun kv => kv.2.nombre)) = ["   "] ∧
    ((execOps gestorVacio [Op.addPaciente "   " "0909" "" "" ""]).store.pacientes.map
      (fun r => r.nombre)) = ["   "] ∧
    ¬ NombreOk "   " :=
  ⟨by decide, by decide, fun h => absurd h.1 (by decide)⟩

/-- C3 (amended): only the name setter (used by `actualizar_paciente`)
validates and trims; `agregar_paciente` stores the submitted name verbatim.
The invariant that every repository patient's full name is non-empty and
trimmed therefore holds after any operation sequence exactly when it holds
initially and every name submitted to a create/update operation is itself
non-empty and trimmed. -/
theorem nombres_ok_si_entradas_ok (g : Gestor) (ops : List Op)
    (hg : PacientesNombresOk g) (hops : ∀ op ∈ ops, opNombreOk op) :
    PacientesNombresOk (execOps g ops) := by
  induction ops generalizing g with
  | nil => exact hg
  | cons op rest ih =>
    simp only [execOps, List.foldl_cons]
    exact ih (applyOp g op)
      (applyOp_nombres_ok hg (hops op (List.mem_cons_self _ _)))
      (fun o ho => hops o (List.mem_cons_of_mem _ ho))

/-- Witness for the amended C3: a create with a good name, then an update
with a good name, keep the invariant. -/
theorem nombres_ok_si_entradas_ok_witness :
    PacientesNombresOk (execOps gestorVacio
      [Op.addPaciente "Ana Torres" "0102" "099" "a@m.c" "1990-05-01",
       Op.updPaciente 1 "Ana T. Mora" "098" "b@m.c"]) := by
  refine nombres_ok_si_entradas_ok gestorVacio _ ?_ ?_
  · exact ⟨by simp [gestorVacio, cargar_datos, storeVacio],
      by simp [gestorVacio, cargar_datos, storeVacio]⟩
  · intro op hop
    rcases List.mem_cons.mp hop with rfl | hop2
    · exact ⟨by decide, by decide⟩
    · rcases List.mem_singleton.mp hop2 with rfl
      exact ⟨by decide, by decide⟩


/-! ## C4: cascading deletes -/

/-- C4: for a patient id known to the repository, `eliminar_paciente` removes
every appointment referencing it from both the cache and the store, keeps
every other appointment, removes the patient from both, and returns success;
for an unknown id it returns failure and changes nothing.  The symmetric
property holds for `eliminar_doctor`. -/
theorem eliminar_cascada (g : Gestor) (idp idd : Nat) :
    ((∃ p, dget g.pacientes idp = some p) →
      (eliminar_paciente g idp).2 = true ∧
      (∀ kv ∈ (eliminar_paciente g idp).1.citas, kv.2.id_paciente ≠ idp) ∧
      (∀ r ∈ (eliminar_paciente g idp).1.store.citas, r.id_paciente ≠ idp) ∧
      (∀ kv ∈ g.citas, kv.2.id_paciente ≠ idp →
        kv ∈ (eliminar_paciente g idp).1.citas) ∧
      (∀ r ∈ g.store.citas, r.id_paciente ≠ idp →
        r ∈ (eliminar_paciente g idp).1.store.citas) ∧
      dget (eliminar_paciente g idp).1.pacientes idp = none ∧
      (∀ r ∈ (eliminar_paciente g idp).1.store.pacientes, r.id_paciente ≠ idp)) ∧
    (dget g.pacientes idp = none → eliminar_paciente g idp = (g, false)) ∧
    ((∃ d, dget g.doctores idd = some d) →
      (eliminar_doctor g idd).2 = true ∧
      (∀ kv ∈ (eliminar_doctor g idd).1.citas, kv.2.id_doctor ≠ idd) ∧
      (∀ r ∈ (eliminar_doctor g idd).1.store.citas, r.id_doctor ≠ idd) ∧
      (∀ kv ∈ g.citas, kv.2.id_doctor ≠ idd →
        kv ∈ (eliminar_doctor g idd).1.citas) ∧
      (∀ r ∈ g.store.citas, r.id_doctor ≠ idd →
        r ∈ (eliminar_doctor g idd).1.store.citas) ∧
      dget (eliminar_doctor g idd).1.doctores idd = none ∧
      (∀ r ∈ (eliminar_doctor g idd).1.store.doctores, r.id_doctor ≠ idd)) ∧
    (dget g.doctores idd = none → eliminar_doctor g idd = (g, false)) := by
  refine ⟨?_, fun h => eliminar_paciente_none h, ?_, fun h => eliminar_doctor_none h⟩
  · rintro ⟨p, hp⟩
    rw [eliminar_paciente_some hp]
    refine ⟨rfl, ?_, ?_, ?_, ?_, dget_ddel_self _ _, ?_⟩
    · intro kv hkv
      simpa using (List.mem_filter.mp hkv).2
    · intro r hr
      simpa using (List.mem_filter.mp hr).2
    · intro kv hkv hne
      exact List.mem_filter.mpr ⟨hkv, by simpa using hne⟩
    · intro r hr hne
      exact List.mem_filter.mpr ⟨hr, by simpa using hne⟩
    · intro r hr
      simpa using (List.mem_filter.mp hr).2
  · rintro ⟨d, hd⟩
    rw [eliminar_doctor_some hd]
    refine ⟨rfl, ?_, ?_, ?_, ?_, dget_ddel_self _ _, ?_⟩
    · intro kv hkv
      simpa using (List.mem_filter.mp hkv).2
    · intro r hr
      simpa using (List.mem_filter.mp hr).2
    · intro kv hkv hne
      exact List.mem_filter.mpr ⟨hkv, by simpa using hne⟩
    · intro r hr hne
      exact List.mem_filter.mpr ⟨hr, by simpa using hne⟩
    · intro r hr
      simpa using (List.mem_filter.mp hr).2

/-- Witness for C4 on the demo repository: deleting patient 1 (who has two
appointments) succeeds and empties his cache entry; deleting the unknown
doctor 7 is a no-op returning failure. -/
theorem eliminar_cascada_witness :
    (eliminar_paciente gDemo 1).2 = true ∧
    dget (eliminar_paciente gDemo 1).1.pacientes 1 = none ∧
    eliminar_doctor gDemo 7 = (gDemo, false) := by
  have h := eliminar_cascada gDemo 1 7
  have h1 := h.1 ⟨Paciente.mk 1 "Ana Torres" "0102030405" "0991112233"
    "ana@mail.com" "1990-05-01", by decide⟩
  exact ⟨h1.1, h1.2.2.2.2.2.1, h.2.2.2 (by decide)⟩

/-! ## C7: appointment status updates -/

theorem map_update_citarow_estado {rows : List CitaRow} {i : Nat} {e : String}
    {r : CitaRow}
    (hr : r ∈ rows.map (fun r => if r.id_cita == i then { r with estado := e } else r))
    (hri : r.id_cita = i) : r.estado = e := by
  rcases List.mem_map.mp hr with ⟨r0, hr0, hmap⟩
  by_cases h0 : r0.id_cita == i
  · rw [← hmap]
    simp [h0]
  · rw [← hmap] at hri
    simp only [h0, Bool.false_eq_true, if_false] at hri
    exact absurd (beq_iff_eq.mpr hri) h0

theorem map_update_citarow_other {rows : List CitaRow} {i : Nat} {e : String}
    {r : CitaRow} (hr : r ∈ rows) (hri : r.id_cita ≠ i) :
    r ∈ rows.map (fun r => if r.id_cita == i then { r with estado := e } else r) := by
  refine List.mem_map.mpr ⟨r, hr, ?_⟩
  simp [hri]

/-- C7: `actualizar_estado_cita` succeeds if and only if the appointment id
is known and the requested status is one of the four valid values; on failure
it changes neither store nor cache, and on success it updates both the store
row and the cached appointment to the requested status. -/
theorem actualizar_estado_spec (g : Gestor) (i : Nat) (e : String) :
    ((actualizar_estado_cita g i e).2 = true ↔
      ((dget g.citas i).isSome = true ∧ e ∈ ESTADOS)) ∧
    (((dget g.citas i).isSome = false ∨ e ∉ ESTADOS) →
      actualizar_estado_cita g i e = (g, false)) ∧
    (∀ c, dget g.citas i = some c → e ∈ ESTADOS →
      dget (actualizar_estado_cita g i e).1.citas i = some { c with estado := e } ∧
      (∀ r ∈ (actualizar_estado_cita g i e).1.store.citas,
        r.id_cita = i → r.estado = e) ∧
      (∀ r ∈ g.store.citas, r.id_cita ≠ i →
        r ∈ (actualizar_estado_cita g i e).1.store.citas)) := by
  refine ⟨?_, ?_, ?_⟩
  · rcases hdg : dget g.citas i with - | c
    · rw [actualizar_estado_cita_none hdg]
      simp
    · by_cases he : e ∈ ESTADOS
      · rw [actualizar_estado_cita_valido hdg he]
        simp [he]
      · rw [actualizar_estado_cita_invalido hdg he]
        simp [he]
  · intro h
    rcases hdg : dget g.citas i with - | c
    · exact actualizar_estado_cita_none hdg
    · rcases h with h | h
      · rw [hdg] at h
        simp at h
      · exact actualizar_estado_cita_invalido hdg h
  · intro c hdg he
    rw [actualizar_estado_cita_valido hdg he]
    exact ⟨dget_dset_self _ _ _,
      fun r hr hri => map_update_citarow_estado hr hri,
      fun r hr hri => map_update_citarow_other hr hri⟩

/-- Witness for C7 on the demo repository: confirming appointment 1 succeeds
and updates the cache; an invalid status is a no-op returning failure. -/
theorem actualizar_estado_spec_witness :
    (actualizar_estado_cita gDemo 1 "Confirmada").2 = true ∧
    actualizar_estado_cita gDemo 1 "EnEspera" = (gDemo, false) ∧
    dget (actualizar_estado_cita gDemo 1 "Confirmada").1.citas 1 =
      some (Cita.mk 1 1 1 "2025-02-01" "09:00" "control" "Confirmada") := by
  have h := actualizar_estado_spec gDemo 1 "Confirmada"
  have h2 := actualizar_estado_spec gDemo 1 "EnEspera"
  refine ⟨h.1.mpr ⟨by decide, by decide⟩, h2.2.1 (Or.inr (by decide)), ?_⟩
  exact (h.2.2 (Cita.mk 1 1 1 "2025-02-01" "09:00" "control" "Pendiente")
    (by decide) (by decide)).1


/-! ## C5: statistics machinery -/

theorem applyOp_estados_validos {g : Gestor} (op : Op)
    (hg : CitasEstadosValidos g) : CitasEstadosValidos (applyOp g op) := by
  cases op with
  | addPaciente n c t co f =>
    simp only [applyOp]
    cases hca : agregar_paciente g n c t co f with
    | error e => exact hg
    | ok gp =>
      obtain ⟨g1, p⟩ := gp
      obtain ⟨-, hg1⟩ := agregar_paciente_ok hca
      rw [hg1]
      exact hg
  | updPaciente i n t c =>
    simp only [applyOp]
    rcases hdg : dget g.pacientes i with - | p
    · rw [actualizar_paciente_none hdg]
      exact hg
    · by_cases hb : pstrip n = ""
      · rw [actualizar_paciente_some_blank hdg hb]
        exact hg
      · rw [actualizar_paciente_some_ok hdg hb]
        exact hg
  | delPaciente i =>
    simp only [applyOp]
    rcases hdg : dget g.pacientes i with - | p
    · rw [eliminar_paciente_none hdg]
      exact hg
    · rw [eliminar_paciente_some hdg]
      exact fun kv hkv => hg kv (List.mem_of_mem_filter hkv)
  | addDoctor n e t c =>
    simp only [applyOp, agregar_doctor]
    exact hg
  | updDoctor i n e t c =>
    simp only [applyOp]
    rcases hdg : dget g.doctores i with - | d
    · rw [actualizar_doctor_none hdg]
      exact hg
    · rw [actualizar_doctor_some hdg]
      exact hg
  | delDoctor i =>
    simp only [applyOp]
    rcases hdg : dget g.doctores i with - | d
    · rw [eliminar_doctor_none hdg]
      exact hg
    · rw [eliminar_doctor_some hdg]
      exact fun kv hkv => hg kv (List.mem_of_mem_filter hkv)
  | addCita pid did f h m =>
    simp only [applyOp, agendar_cita]
    intro kv hkv
    rcases mem_dset hkv with h1 | h1
    · exact hg kv h1
    · rw [h1]
      exact cita_init_estado_mem _ _ _ _ _ _ _
  | updEstadoCita i e =>
    simp only [applyOp]
    rcases hdg : dget g.citas i with - | ci
    · rw [actualizar_estado_cita_none hdg]
      exact hg
    · by_cases he : e ∈ ESTADOS
      · rw [actualizar_estado_cita_valido hdg he]
        intro kv hkv
        rcases mem_dset hkv with h1 | h1
        · exact hg kv h1
        · rw [h1]
          exact he
      · rw [actualizar_estado_cita_invalido hdg he]
        exact hg
  | delCita i =>
    simp only [applyOp]
    rcases hdg : dget g.citas i with - | ci
    · rw [eliminar_cita_none hdg]
      exact hg
    · rw [eliminar_cita_some hdg]
      exact fun kv hkv => hg kv (mem_ddel hkv)

theorem cargar_datos_estados (s : Store) : CitasEstadosValidos (cargar_datos s) :=
  fun kv hkv =>
    foldl_dset_values (fun r : CitaRow => r.id_cita)
      (fun r => Cita.init r.id_cita r.id_paciente r.id_doctor r.fecha r.hora r.motivo r.estado)
      (fun c => c.estado ∈ ESTADOS)
      (fun r => cita_init_estado_mem _ _ _ _ _ _ _)
      s.citas [] (by simp) kv hkv

theorem execOps_estados {g : Gestor} (ops : List Op) (hg : CitasEstadosValidos g) :
    CitasEstadosValidos (execOps g ops) := by
  induction ops generalizing g with
  | nil => exact hg
  | cons op rest ih =>
    simp only [execOps, List.foldl_cons]
    exact ih (applyOp_estados_validos op hg)

theorem conteo_fold_keys_sum (cs : List Cita) :
    ∀ acc : List (String × Nat), (∀ c ∈ cs, c.estado ∈ acc.map Prod.fst) →
      ((cs.foldl (fun a c => conteoIncrementa a c.estado) acc).map Prod.fst =
        acc.map Prod.fst) ∧
      (((cs.foldl (fun a c => conteoIncrementa a c.estado) acc).map Prod.snd).sum =
        (acc.map Prod.snd).sum + cs.length) := by
  induction cs with
  | nil =>
    intro acc h
    exact ⟨rfl, by simp⟩
  | cons c rest ih =>
    intro acc h
    have hc : dcontains acc c.estado = true :=
      dcontains_of_mem_fst (h c (List.mem_cons_self _ _))
    have hkeys : (conteoIncrementa acc c.estado).map Prod.fst = acc.map Prod.fst :=
      map_fst_dset_of_contains _ hc
    have hsum : ((conteoIncrementa acc c.estado).map Prod.snd).sum =
        (acc.map Prod.snd).sum + 1 :=
      sum_snd_dset_incr hc
    have hrest : ∀ c2 ∈ rest, c2.estado ∈ (conteoIncrementa acc c.estado).map Prod.fst := by
      intro c2 hc2
      rw [hkeys]
      exact h c2 (List.mem_cons_of_mem _ hc2)
    obtain ⟨k1, s1⟩ := ih (conteoIncrementa acc c.estado) hrest
    refine ⟨by rw [List.foldl_cons, k1, hkeys], ?_⟩
    rw [List.foldl_cons, s1, hsum]
    simp only [List.length_cons]
    omega

/-- C5: for every repository state reachable by loading a database file and
running any operation sequence, the statistics map `citas_por_estado` has
exactly the four status keys, in order, and its four counts sum to
`total_citas`, the total appointment count. -/
theorem estadisticas_claves_y_suma (s : Store) (ops : List Op) :
    ((estadisticas (execOps (cargar_datos s) ops)).citas_por_estado.map Prod.fst =
      ESTADOS) ∧
    (((estadisticas (execOps (cargar_datos s) ops)).citas_por_estado.map Prod.snd).sum =
      (estadisticas (execOps (cargar_datos s) ops)).total_citas) := by
  have hval : CitasEstadosValidos (execOps (cargar_datos s) ops) :=
    execOps_estados ops (cargar_datos_estados s)
  have hkeys0 : ((ESTADOS.map (fun e => (e, 0))).map Prod.fst) = ESTADOS := by
    decide
  have h0 : ∀ c ∈ dvalues (execOps (cargar_datos s) ops).citas,
      c.estado ∈ (ESTADOS.map (fun e => (e, 0))).map Prod.fst := by
    intro c hc
    rw [hkeys0]
    rcases List.mem_map.mp hc with ⟨kv, hkv, hkv2⟩
    rw [← hkv2]
    exact hval kv hkv
  obtain ⟨hk, hs⟩ :=
    conteo_fold_keys_sum (dvalues (execOps (cargar_datos s) ops).citas)
      (ESTADOS.map (fun e => (e, 0))) h0
  constructor
  · simp only [estadisticas]
    rw [hk, hkeys0]
  · simp only [estadisticas]
    rw [hs]
    simp [dvalues, ESTADOS]


/-! ## C6: the joined listing is sorted -/

instance : IsTrans CitaDetalle citaKeyLE := by
  constructor
  intro a b c hab hbc
  rcases hab with h1 | ⟨he1, hl1⟩
  · rcases hbc with h2 | ⟨he2, hl2⟩
    · exact Or.inl (lt_trans h1 h2)
    · exact Or.inl (he2 ▸ h1)
  · rcases hbc with h2 | ⟨he2, hl2⟩
    · exact Or.inl (he1 ▸ h2)
    · exact Or.inr ⟨he1.trans he2, le_trans hl1 hl2⟩

instance : IsTotal CitaDetalle citaKeyLE := by
  constructor
  intro a b
  rcases lt_trichotomy a.fecha.data b.fecha.data with h | h | h
  · exact Or.inl (Or.inl h)
  · have he : a.fecha = b.fecha := String.ext h
    rcases le_total a.hora.data b.hora.data with hh | hh
    · exact Or.inl (Or.inr ⟨he, hh⟩)
    · exact Or.inr (Or.inr ⟨he.symm, hh⟩)
  · exact Or.inr (Or.inl h)

/-- C6: the joined listing returned by `listar_citas_detalle` is a
permutation of the enriched appointment collection sorted ascending by the
compound key `(fecha, hora)` under lexical string comparison, date first; in
particular, in the demo repository the `2025-01-15` appointment sorts before
the `2025-02-01` one even though its time is later. -/
theorem listar_citas_detalle_ordenada (g : Gestor) :
    List.Sorted citaKeyLE (listar_citas_detalle g) ∧
    List.Perm (listar_citas_detalle g) ((dvalues g.citas).map (citaDetalleDe g)) ∧
    ((listar_citas_detalle gDemo).map (fun x => x.fecha)) =
      ["2025-01-15", "2025-02-01"] ∧
    ((listar_citas_detalle gDemo).map (fun x => x.hora)) = ["10:00", "09:00"] :=
  ⟨List.sorted_insertionSort citaKeyLE _,
   List.perm_insertionSort citaKeyLE _,
   by decide, by decide⟩

end CitasMedicas